import Mathlib

/-!
Verification of the text layout and safe-zone geometry engine of the
Cachetmarocweb stamp designer.

The definitions below are a shallow embedding of the TypeScript source:

* `TextPositioningService` (the unnamed service module): default line
  placement, even distribution, safe-zone enforcement and tests,
  collision detection, curved-text angle math;
* the numeric core of `renderCurvedText` from `useStampDesigner.ts`;
* the numeric core of `formatPositionLabel` from
  `SimplifiedTextEditor.tsx`.

JavaScript numbers are modelled as real numbers.  The JavaScript
truthiness coalescing `v || d` on a number field is modelled by `jsOr`
(zero is the only falsy real number, so `v || 0` is the identity and
`v || 16` maps `0` to `16`).
-/

noncomputable section

/-- Stamp shape, the closed string union `rectangle | circle | square`. -/
inductive StampShape
  | rectangle
  | circle
  | square
deriving DecidableEq

/-- Curvature side of a curved line, the string union `top | bottom`. -/
inductive Curvature
  | top
  | bottom
deriving DecidableEq

/-- Text alignment, the string union `left | center | right`. -/
inductive TextAlignment
  | left
  | center
  | right
deriving DecidableEq

/-- One line of stamp text (`StampTextLine` in `types/index.ts`).
The optional TypeScript fields `curvature?` and `isDragging?` are
modelled with `Option`; the styling-only `textEffect?` field is not
read by any function embedded here and is omitted. -/
@[ext]
structure StampTextLine where
  text : String
  fontSize : ℝ
  fontFamily : String
  bold : Bool
  italic : Bool
  alignment : TextAlignment
  curved : Bool
  curvature : Option Curvature
  xPosition : ℝ
  yPosition : ℝ
  isDragging : Option Bool
  letterSpacing : ℝ

/-- JavaScript `v || d` on numbers: `0` is the only falsy real value. -/
def jsOr (v d : ℝ) : ℝ := if v = 0 then d else v

namespace TextPositioningService

/-- Safe zone margin in percentage (1mm = 2% of stamp size). -/
def MARGIN_PERCENT : ℝ := 2

/-- Result type of `getDefaultLinePosition`: the TypeScript function
returns a `Partial<StampTextLine>` carrying exactly these five fields. -/
structure DefaultLinePosition where
  xPosition : ℝ
  yPosition : ℝ
  curved : Bool
  curvature : Option Curvature
  fontSize : ℝ

/-- Gets a default position for a line based on its index and total lines
(`TextPositioningService.getDefaultLinePosition`). -/
def getDefaultLinePosition (index totalLines : ℕ) (shape : StampShape) :
    DefaultLinePosition :=
  let line : DefaultLinePosition :=
    { xPosition := 0, yPosition := 0, curved := false,
      curvature := some .top, fontSize := 16 }
  if shape = .circle ∧ totalLines ≥ 2 then
    if index = 0 then
      { line with curved := true, curvature := some .top,
                  yPosition := -70, fontSize := 14 }
    else if index = totalLines - 1 then
      { line with curved := true, curvature := some .bottom,
                  yPosition := 70, fontSize := 14 }
    else
      let middleLineCount := totalLines - 2
      if middleLineCount > 0 then
        let middleIndex := index - 1
        let spacing : ℝ := 100 / ((middleLineCount : ℝ) + 1)
        { line with yPosition := -40 + ((middleIndex : ℝ) + 1) * spacing }
      else
        line
  else
    let availableHeight : ℝ := 180
    let spacing : ℝ :=
      if totalLines > 1 then availableHeight / (totalLines : ℝ) else 0
    let startY : ℝ := -availableHeight / 2 + spacing / 2
    let line := { line with yPosition := startY + (index : ℝ) * spacing }
    if totalLines > 3 then
      { line with fontSize := max 12 (18 - (totalLines : ℝ)) }
    else
      line

/-- Spacing between lines in `distributeLines`:
`lineCount > 1 ? (availableHeight - totalTextHeight) / (lineCount - 1) : 0`,
where `totalTextHeight` is the reduce over `line.fontSize * 1.2` and
`availableHeight` is 160 for circles and 180 otherwise. -/
def distributeSpacing (lines : List StampTextLine) (shape : StampShape) : ℝ :=
  let availableHeight : ℝ := if shape = .circle then 160 else 180
  let totalTextHeight : ℝ :=
    lines.foldl (fun total line => total + line.fontSize * 1.2) 0
  if lines.length > 1 then
    (availableHeight - totalTextHeight) / ((lines.length : ℝ) - 1)
  else 0

/-- Body of the map callback in `distributeLines`: curvature handling for
circles plus the rescale of the raw y into the -100..100 frame. -/
def distributeStep (shape : StampShape) (lineCount index : ℕ)
    (line : StampTextLine) (yPosition availableHeight : ℝ) : StampTextLine :=
  let newLine :=
    if shape = .circle ∧ lineCount > 1 then
      if index = 0 then
        { line with curved := true, curvature := some .top }
      else if index = lineCount - 1 then
        { line with curved := true, curvature := some .bottom }
      else
        { line with curved := false }
    else line
  { newLine with yPosition := yPosition / (availableHeight / 2) * 100 }

/-- The indexed walk of `distributeLines`: carries the running `currentY`
and the element index through the list, exactly as the source mutates
`currentY` inside `lines.map((line, index) => ...)`. -/
def distributeGo (shape : StampShape) (lineCount : ℕ)
    (spacing availableHeight : ℝ) :
    ℕ → ℝ → List StampTextLine → List StampTextLine
  | _, _, [] => []
  | index, currentY, line :: rest =>
    let lineHeight := line.fontSize * 1.2
    distributeStep shape lineCount index line (currentY + lineHeight / 2)
        availableHeight ::
      distributeGo shape lineCount spacing availableHeight (index + 1)
        (currentY + lineHeight + spacing) rest

/-- Distribute text lines evenly within the stamp area
(`TextPositioningService.distributeLines`). -/
def distributeLines (lines : List StampTextLine) (shape : StampShape) :
    List StampTextLine :=
  if lines.length = 0 then []
  else
    let availableHeight : ℝ := if shape = .circle then 160 else 180
    distributeGo shape lines.length (distributeSpacing lines shape)
      availableHeight 0 (-availableHeight / 2) lines

/-- Keeps text within the safe zone boundaries
(`TextPositioningService.enforceSafeZone`). -/
def enforceSafeZone (line : StampTextLine) (shape : StampShape) :
    StampTextLine :=
  let margin := MARGIN_PERCENT
  if shape = .circle then
    let safeRadius := 100 - margin * Real.sqrt 2
    let distanceFromCenter :=
      Real.sqrt (jsOr line.xPosition 0 ^ 2 + jsOr line.yPosition 0 ^ 2)
    if distanceFromCenter > safeRadius then
      let ratio := safeRadius / distanceFromCenter
      { line with xPosition := jsOr line.xPosition 0 * ratio,
                  yPosition := jsOr line.yPosition 0 * ratio }
    else line
  else
    let safeMax := 100 - margin
    let safeMin := -safeMax
    { line with xPosition := min (max (jsOr line.xPosition 0) safeMin) safeMax,
                yPosition := min (max (jsOr line.yPosition 0) safeMin) safeMax }

/-- Check if a text line is outside the safe zone
(`TextPositioningService.isOutsideSafeZone`). -/
def isOutsideSafeZone (line : StampTextLine) (shape : StampShape) : Bool :=
  let margin := MARGIN_PERCENT
  if shape = .circle then
    let safeRadius := 100 - margin * Real.sqrt 2
    let distanceFromCenter :=
      Real.sqrt (jsOr line.xPosition 0 ^ 2 + jsOr line.yPosition 0 ^ 2)
    decide (distanceFromCenter > safeRadius)
  else
    let safeMax := 100 - margin
    let safeMin := -safeMax
    decide (jsOr line.xPosition 0 > safeMax ∨ jsOr line.xPosition 0 < safeMin ∨
      jsOr line.yPosition 0 > safeMax ∨ jsOr line.yPosition 0 < safeMin)

/-- The per-pair test in the inner loop of `detectLineCollisions`. -/
def collides (line1 line2 : StampTextLine) : Bool :=
  let line1Height := jsOr line1.fontSize 16
  let line2Height := jsOr line2.fontSize 16
  let yDistance := |jsOr line1.yPosition 0 - jsOr line2.yPosition 0|
  let minRequiredDistance := (line1Height + line2Height) * 0.6
  let xDistance := |jsOr line1.xPosition 0 - jsOr line2.xPosition 0|
  let textWidth1 := (line1.text.length : ℝ) * jsOr line1.fontSize 16 * 0.6
  let textWidth2 := (line2.text.length : ℝ) * jsOr line2.fontSize 16 * 0.6
  decide (yDistance < minRequiredDistance ∧
    xDistance < (textWidth1 + textWidth2) / 2)

/-- The double loop of `detectLineCollisions`: for each position `i` the
inner loop tests `lines[i]` against every later element, returning true
on the first colliding pair. -/
def detectGo : List StampTextLine → Bool
  | [] => false
  | line1 :: rest => rest.any (fun line2 => collides line1 line2) || detectGo rest

/-- Detect if any text lines are overlapping
(`TextPositioningService.detectLineCollisions`).  The `shape` parameter
is accepted and ignored, as in the source. -/
def detectLineCollisions (lines : List StampTextLine)
    (_shape : StampShape) : Bool :=
  if lines.length < 2 then false
  else detectGo lines

/-- Calculate available height for text based on shape
(`TextPositioningService.calculateAvailableHeight`). -/
def calculateAvailableHeight (shape : StampShape) : ℝ :=
  if shape = .circle then 160 else 180

/-- Safe zone margins per side, the return type of `getSafeZone`. -/
structure SafeZone where
  top : ℝ
  right : ℝ
  bottom : ℝ
  left : ℝ

/-- Get safe zone margins for a given shape
(`TextPositioningService.getSafeZone`). -/
def getSafeZone (_shape : StampShape) : SafeZone :=
  let margin := MARGIN_PERCENT
  { top := margin, right := margin, bottom := margin, left := margin }

/-- Check if text is fully within the safe zone, accounting for text
dimensions (`TextPositioningService.isTextWithinSafeZone`).  The guard
`if (!text || text.length === 0) return true` is the `text = ""` test:
the empty string is the only falsy string and the only one of length 0. -/
def isTextWithinSafeZone (text : String) (line : StampTextLine)
    (shape : StampShape) : Bool :=
  if text = "" then true
  else
    let estimatedCharWidth := line.fontSize * 0.6
    let estimatedTextWidth := (text.length : ℝ) * estimatedCharWidth
    let estimatedTextHeight := line.fontSize * 1.2
    let textLeft := jsOr line.xPosition 0 - estimatedTextWidth / 2
    let textRight := jsOr line.xPosition 0 + estimatedTextWidth / 2
    let textTop := jsOr line.yPosition 0 - estimatedTextHeight / 2
    let textBottom := jsOr line.yPosition 0 + estimatedTextHeight / 2
    let safeZone := getSafeZone shape
    let safeLeft := -100 + safeZone.left
    let safeRight := 100 - safeZone.right
    let safeTop := -100 + safeZone.top
    let safeBottom := 100 - safeZone.bottom
    if shape = .rectangle ∨ shape = .square then
      decide (textLeft ≥ safeLeft ∧ textRight ≤ safeRight ∧
        textTop ≥ safeTop ∧ textBottom ≤ safeBottom)
    else if shape = .circle then
      let safeRadius := 100 -
        max (max (max safeZone.top safeZone.right) safeZone.bottom)
          safeZone.left
      if line.curved then
        let distanceFromCenter := |jsOr line.yPosition 0|
        decide (distanceFromCenter + estimatedTextHeight / 2 ≤ safeRadius)
      else
        let distanceFromCenter :=
          Real.sqrt (jsOr line.xPosition 0 ^ 2 + jsOr line.yPosition 0 ^ 2)
        let textBoxDiagonal :=
          Real.sqrt ((estimatedTextWidth / 2) ^ 2 +
            (estimatedTextHeight / 2) ^ 2)
        decide (distanceFromCenter + textBoxDiagonal ≤ safeRadius)
    else
      true

/-- The `forEach` of `getLinesOutsideSafeZone`: walk the list with an
index, pushing the index whenever `isTextWithinSafeZone` fails. -/
def linesOutsideGo (shape : StampShape) :
    ℕ → List StampTextLine → List ℕ
  | _, [] => []
  | index, line :: rest =>
    if isTextWithinSafeZone line.text line shape = false then
      index :: linesOutsideGo shape (index + 1) rest
    else
      linesOutsideGo shape (index + 1) rest

/-- Indices of lines whose text is not fully inside the safe zone
(`TextPositioningService.getLinesOutsideSafeZone`). -/
def getLinesOutsideSafeZone (lines : List StampTextLine)
    (shape : StampShape) : List ℕ :=
  if lines.length = 0 then []
  else linesOutsideGo shape 0 lines

/-- Start angle of the arc in `TextPositioningService.renderCurvedText`:
`isBottomText ? Math.PI / 4 : -Math.PI / 4`. -/
def renderCurvedTextStartAngle (isBottomText : Bool) : ℝ :=
  if isBottomText then Real.pi / 4 else -(Real.pi / 4)

/-- End angle of the arc in `TextPositioningService.renderCurvedText`:
`isBottomText ? (Math.PI * 7) / 4 : Math.PI / 4`. -/
def renderCurvedTextEndAngle (isBottomText : Bool) : ℝ :=
  if isBottomText then Real.pi * 7 / 4 else Real.pi / 4

/-- Total sweep of `TextPositioningService.renderCurvedText`:
`Math.abs(endAngle - startAngle)`. -/
def renderCurvedTextArcLength (isBottomText : Bool) : ℝ :=
  |renderCurvedTextEndAngle isBottomText -
    renderCurvedTextStartAngle isBottomText|

/-- Per-character advance of `TextPositioningService.renderCurvedText`:
`charAngle = arcLength / textLength`. -/
def renderCurvedTextCharAngle (isBottomText : Bool) (textLength : ℕ) : ℝ :=
  renderCurvedTextArcLength isBottomText / (textLength : ℝ)

end TextPositioningService

namespace useStampDesigner

/-- Arc sweep of the canvas `renderCurvedText` helper in
`useStampDesigner.ts`: `const arcLength = Math.PI * 1.2`. -/
def renderCurvedText_arcLength : ℝ := Real.pi * 1.2

/-- Per-character advance of the canvas `renderCurvedText` helper:
`textLength > 0 ? arcLength / textLength : 0`. -/
def renderCurvedText_charAngle (textLength : ℕ) : ℝ :=
  if textLength > 0 then renderCurvedText_arcLength / (textLength : ℝ) else 0

/-- Initial character angle of the canvas `renderCurvedText` helper:
`let currentAngle = -arcLength / 2` (a sweep symmetric about the
vertical axis). -/
def renderCurvedText_startAngle : ℝ := -renderCurvedText_arcLength / 2

end useStampDesigner

namespace SimplifiedTextEditor

/-- Numeric core of `formatPositionLabel` in `SimplifiedTextEditor.tsx`:
`const mmValue = value / 4` (the rendered string then applies
`toFixed(1)`, string formatting that is not part of the conversion). -/
def formatPositionLabel_mm (value : ℝ) : ℝ := value / 4

end SimplifiedTextEditor

namespace GeometryPrimitives

/-- Modelled from the spec: `toMillimeters(coord) = coord / 4`
(spec section 4.1).  No function named `toMillimeters` exists under
src; the computation appears inline in `formatPositionLabel`
(`SimplifiedTextEditor.tsx`, `const mmValue = value / 4`). -/
def toMillimeters (coord : ℝ) : ℝ := coord / 4

/-- Modelled from the spec: `toCoord(mm) = mm * 4` (spec section 4.1).
No function named `toCoord` exists under src. -/
def toCoord (mm : ℝ) : ℝ := mm * 4

end GeometryPrimitives

/-- A concrete text line used by witness statements. -/
def sampleLine (t : String) (fs x y : ℝ) : StampTextLine :=
  { text := t, fontSize := fs, fontFamily := "Arial", bold := false,
    italic := false, alignment := .center, curved := false,
    curvature := some .top, xPosition := x, yPosition := y,
    isDragging := none, letterSpacing := 0 }

@[simp]
theorem jsOr_zero (v : ℝ) : jsOr v 0 = v := by
  unfold jsOr
  split <;> simp_all

namespace TextPositioningService

theorem sqrt_two_lt_two : Real.sqrt 2 < 2 := by
  nlinarith [Real.sq_sqrt (show (0:ℝ) ≤ 2 by norm_num), Real.sqrt_nonneg 2]

/-- The circular safe radius `100 - margin * sqrt 2` is positive. -/
theorem safeRadius_pos : 0 < 100 - MARGIN_PERCENT * Real.sqrt 2 := by
  have h := sqrt_two_lt_two
  have h2 := Real.sqrt_nonneg 2
  unfold MARGIN_PERCENT
  nlinarith

/-- Scaling both coordinates by a nonnegative factor scales the
Euclidean distance from the center by that factor. -/
theorem sqrt_scale (x y r : ℝ) (hr : 0 ≤ r) :
    Real.sqrt ((x * r) ^ 2 + (y * r) ^ 2) = r * Real.sqrt (x ^ 2 + y ^ 2) := by
  have h : (x * r) ^ 2 + (y * r) ^ 2 = r ^ 2 * (x ^ 2 + y ^ 2) := by ring
  rw [h, Real.sqrt_mul (by positivity), Real.sqrt_sq hr]

/-- The radial projection in the circle branch of `enforceSafeZone`
lands exactly on the safe radius. -/
theorem projected_dist (x y : ℝ)
    (hd : Real.sqrt (x ^ 2 + y ^ 2) > 100 - MARGIN_PERCENT * Real.sqrt 2) :
    Real.sqrt
        ((x * ((100 - MARGIN_PERCENT * Real.sqrt 2) /
            Real.sqrt (x ^ 2 + y ^ 2))) ^ 2 +
          (y * ((100 - MARGIN_PERCENT * Real.sqrt 2) /
            Real.sqrt (x ^ 2 + y ^ 2))) ^ 2) =
      100 - MARGIN_PERCENT * Real.sqrt 2 := by
  have hsR := safeRadius_pos
  have hdpos : 0 < Real.sqrt (x ^ 2 + y ^ 2) := lt_trans hsR hd
  rw [sqrt_scale _ _ _ (le_of_lt (div_pos hsR hdpos))]
  exact div_mul_cancel₀ _ (ne_of_gt hdpos)

end TextPositioningService

open TextPositioningService in
/-- C1: for every line and every shape, a line corrected by
`enforceSafeZone` passes `isOutsideSafeZone` with result false. -/
theorem isOutsideSafeZone_enforceSafeZone (line : StampTextLine)
    (shape : StampShape) :
    isOutsideSafeZone (enforceSafeZone line shape) shape = false := by
  cases shape with
  | circle =>
    simp only [enforceSafeZone, isOutsideSafeZone, jsOr_zero, if_pos,
      reduceCtorEq, ite_true, ite_eq_right_iff]
    by_cases hd : Real.sqrt (line.xPosition ^ 2 + line.yPosition ^ 2) >
        100 - MARGIN_PERCENT * Real.sqrt 2
    · rw [if_pos hd]
      simp only [jsOr_zero]
      rw [projected_dist _ _ hd]
      simp
    · rw [if_neg hd]
      simpa using hd
  | rectangle =>
    simp only [enforceSafeZone, isOutsideSafeZone, jsOr_zero, reduceCtorEq,
      ite_false]
    rw [decide_eq_false_iff_not]
    have hmM : -(100 - MARGIN_PERCENT) ≤ 100 - MARGIN_PERCENT := by
      unfold MARGIN_PERCENT; norm_num
    have h1 := min_le_right (max line.xPosition (-(100 - MARGIN_PERCENT)))
      (100 - MARGIN_PERCENT)
    have h2 : -(100 - MARGIN_PERCENT) ≤
        min (max line.xPosition (-(100 - MARGIN_PERCENT)))
          (100 - MARGIN_PERCENT) := le_min (le_max_right _ _) hmM
    have h3 := min_le_right (max line.yPosition (-(100 - MARGIN_PERCENT)))
      (100 - MARGIN_PERCENT)
    have h4 : -(100 - MARGIN_PERCENT) ≤
        min (max line.yPosition (-(100 - MARGIN_PERCENT)))
          (100 - MARGIN_PERCENT) := le_min (le_max_right _ _) hmM
    rintro (h | h | h | h) <;> linarith
  | square =>
    simp only [enforceSafeZone, isOutsideSafeZone, jsOr_zero, reduceCtorEq,
      ite_false]
    rw [decide_eq_false_iff_not]
    have hmM : -(100 - MARGIN_PERCENT) ≤ 100 - MARGIN_PERCENT := by
      unfold MARGIN_PERCENT; norm_num
    have h1 := min_le_right (max line.xPosition (-(100 - MARGIN_PERCENT)))
      (100 - MARGIN_PERCENT)
    have h2 : -(100 - MARGIN_PERCENT) ≤
        min (max line.xPosition (-(100 - MARGIN_PERCENT)))
          (100 - MARGIN_PERCENT) := le_min (le_max_right _ _) hmM
    have h3 := min_le_right (max line.yPosition (-(100 - MARGIN_PERCENT)))
      (100 - MARGIN_PERCENT)
    have h4 : -(100 - MARGIN_PERCENT) ≤
        min (max line.yPosition (-(100 - MARGIN_PERCENT)))
          (100 - MARGIN_PERCENT) := le_min (le_max_right _ _) hmM
    rintro (h | h | h | h) <;> linarith

/-- Clamping an already clamped value changes nothing. -/
theorem clamp_idem (v m M : ℝ) (h : m ≤ M) :
    min (max (min (max v m) M) m) M = min (max v m) M := by
  have h1 : m ≤ min (max v m) M := le_min (le_max_right _ _) h
  rw [max_eq_left h1, min_eq_left (min_le_right _ _)]

open TextPositioningService in
/-- C2: `enforceSafeZone` is idempotent for every line and shape. -/
theorem enforceSafeZone_idempotent (line : StampTextLine)
    (shape : StampShape) :
    enforceSafeZone (enforceSafeZone line shape) shape =
      enforceSafeZone line shape := by
  cases shape with
  | circle =>
    by_cases hd : Real.sqrt (line.xPosition ^ 2 + line.yPosition ^ 2) >
        100 - MARGIN_PERCENT * Real.sqrt 2
    · have h1 : enforceSafeZone line .circle =
          { line with
            xPosition := line.xPosition *
              ((100 - MARGIN_PERCENT * Real.sqrt 2) /
                Real.sqrt (line.xPosition ^ 2 + line.yPosition ^ 2)),
            yPosition := line.yPosition *
              ((100 - MARGIN_PERCENT * Real.sqrt 2) /
                Real.sqrt (line.xPosition ^ 2 + line.yPosition ^ 2)) } := by
        simp only [enforceSafeZone, jsOr_zero, ite_true]
        rw [if_pos hd]
      rw [h1]
      simp only [enforceSafeZone, jsOr_zero, ite_true]
      rw [if_neg]
      intro hcon
      rw [projected_dist _ _ hd] at hcon
      exact lt_irrefl _ hcon
    · have h1 : enforceSafeZone line .circle = line := by
        simp only [enforceSafeZone, jsOr_zero, ite_true]
        rw [if_neg hd]
      rw [h1]
      exact h1
  | rectangle =>
    have h : -(100 - MARGIN_PERCENT) ≤ 100 - MARGIN_PERCENT := by
      unfold MARGIN_PERCENT; norm_num
    simp only [enforceSafeZone, jsOr_zero, reduceCtorEq, ite_false]
    ext <;>
      simp [clamp_idem _ (MARGIN_PERCENT - 100) (100 - MARGIN_PERCENT)
        (by unfold MARGIN_PERCENT; norm_num)]
  | square =>
    have h : -(100 - MARGIN_PERCENT) ≤ 100 - MARGIN_PERCENT := by
      unfold MARGIN_PERCENT; norm_num
    simp only [enforceSafeZone, jsOr_zero, reduceCtorEq, ite_false]
    ext <;>
      simp [clamp_idem _ (MARGIN_PERCENT - 100) (100 - MARGIN_PERCENT)
        (by unfold MARGIN_PERCENT; norm_num)]

namespace TextPositioningService

/-- The map body of `distributeLines` never changes the text content. -/
theorem distributeStep_text (shape : StampShape) (lineCount index : ℕ)
    (line : StampTextLine) (y ah : ℝ) :
    (distributeStep shape lineCount index line y ah).text = line.text := by
  simp only [distributeStep]
  split_ifs <;> rfl

/-- The walk of `distributeLines` preserves the list length. -/
theorem distributeGo_length (shape : StampShape) (lineCount : ℕ)
    (spacing ah : ℝ) :
    ∀ (l : List StampTextLine) (index : ℕ) (currentY : ℝ),
      (distributeGo shape lineCount spacing ah index currentY l).length =
        l.length := by
  intro l
  induction l with
  | nil => intro index currentY; rfl
  | cons a rest ih =>
    intro index currentY
    simp only [distributeGo, List.length_cons, ih]

/-- The walk of `distributeLines` preserves the texts in order. -/
theorem distributeGo_map_text (shape : StampShape) (lineCount : ℕ)
    (spacing ah : ℝ) :
    ∀ (l : List StampTextLine) (index : ℕ) (currentY : ℝ),
      (distributeGo shape lineCount spacing ah index currentY l).map
          StampTextLine.text = l.map StampTextLine.text := by
  intro l
  induction l with
  | nil => intro index currentY; rfl
  | cons a rest ih =>
    intro index currentY
    simp only [distributeGo, List.map_cons, ih, distributeStep_text]

/-- `distributeLines` returns a list of the same length as its input. -/
theorem distributeLines_length (lines : List StampTextLine)
    (shape : StampShape) :
    (distributeLines lines shape).length = lines.length := by
  unfold distributeLines
  split
  · rename_i h
    simp [List.length_eq_zero.mp h]
  · exact distributeGo_length _ _ _ _ _ _ _

/-- Element `k` of the walk of `distributeLines` is the map body applied
to element `k` of the input at index `index + k` and some running y. -/
theorem distributeGo_get? (shape : StampShape) (lineCount : ℕ)
    (spacing ah : ℝ) :
    ∀ (l : List StampTextLine) (index : ℕ) (currentY : ℝ) (k : ℕ)
      (hk : k < l.length),
      ∃ y0, (distributeGo shape lineCount spacing ah index currentY l).get? k =
        some (distributeStep shape lineCount (index + k) (l.get ⟨k, hk⟩) y0 ah) := by
  intro l
  induction l with
  | nil => intro index currentY k hk; simp at hk
  | cons a rest ih =>
    intro index currentY k hk
    cases k with
    | zero =>
      exact ⟨currentY + a.fontSize * 1.2 / 2, by simp [distributeGo]⟩
    | succ k =>
      obtain ⟨y0, h⟩ := ih (index + 1) (currentY + a.fontSize * 1.2 + spacing)
        k (by simpa using hk)
      refine ⟨y0, ?_⟩
      have harith : index + 1 + k = index + (k + 1) := by omega
      simpa [distributeGo, harith] using h

end TextPositioningService

open TextPositioningService in
/-- C4: `distributeLines` maps the empty list to the empty list, and for
every input returns a list of the same length whose text contents appear
in the same order as in the input. -/
theorem distributeLines_preserves_lines :
    (∀ shape, distributeLines [] shape = []) ∧
    ∀ (lines : List StampTextLine) (shape : StampShape),
      (distributeLines lines shape).length = lines.length ∧
      (distributeLines lines shape).map StampTextLine.text =
        lines.map StampTextLine.text := by
  refine ⟨fun shape => rfl, fun lines shape => ⟨distributeLines_length _ _, ?_⟩⟩
  unfold distributeLines
  split
  · rename_i h
    simp [List.length_eq_zero.mp h]
  · exact distributeGo_map_text _ _ _ _ _ _ _

open TextPositioningService in
/-- C5: for a circle and at least two lines, `distributeLines` makes the
first output line curved with top curvature, the last output line curved
with bottom curvature, and every interior output line straight. -/
theorem distributeLines_circle_endpoints (lines : List StampTextLine)
    (h : 2 ≤ lines.length) (i : ℕ)
    (hi : i < (distributeLines lines .circle).length) :
    (i = 0 →
      ((distributeLines lines .circle).get ⟨i, hi⟩).curved = true ∧
      ((distributeLines lines .circle).get ⟨i, hi⟩).curvature =
        some Curvature.top) ∧
    (i = lines.length - 1 →
      ((distributeLines lines .circle).get ⟨i, hi⟩).curved = true ∧
      ((distributeLines lines .circle).get ⟨i, hi⟩).curvature =
        some Curvature.bottom) ∧
    (i ≠ 0 → i ≠ lines.length - 1 →
      ((distributeLines lines .circle).get ⟨i, hi⟩).curved = false) := by
  have hlen : lines.length ≠ 0 := by omega
  have hi' : i < lines.length := by
    rwa [distributeLines_length] at hi
  have hgt : lines.length > 1 := by omega
  have hdl : distributeLines lines .circle =
      distributeGo .circle lines.length (distributeSpacing lines .circle)
        160 0 (-160 / 2) lines := by
    unfold distributeLines
    rw [if_neg hlen]
    norm_num
  obtain ⟨y0, hget⟩ := distributeGo_get? .circle lines.length
    (distributeSpacing lines .circle) 160 lines 0 (-160 / 2) i hi'
  have hsome : (distributeLines lines .circle).get? i =
      some ((distributeLines lines .circle).get ⟨i, hi⟩) :=
    List.get?_eq_get hi
  rw [← hdl] at hget
  have heq : (distributeLines lines .circle).get ⟨i, hi⟩ =
      distributeStep .circle lines.length (0 + i) (lines.get ⟨i, hi'⟩) y0 160 :=
    Option.some.inj (hsome.symm.trans hget)
  rw [heq]
  refine ⟨?_, ?_, ?_⟩
  · intro h0
    subst h0
    simp [distributeStep, hgt]
  · intro hlast
    have hne0 : i ≠ 0 := by omega
    have hl0 : lines.length - 1 ≠ 0 := by omega
    rw [Nat.zero_add]
    simp [distributeStep, hgt, hne0, hlast, hl0]
  · intro hne0 hnelast
    rw [Nat.zero_add]
    simp [distributeStep, hgt, hne0, hnelast]

open TextPositioningService in
/-- C9: for a single-line input the inter-line spacing of
`distributeLines` is 0 rather than a division by zero, and the function
still returns a (one-element) list. -/
theorem distributeSpacing_single_line :
    ∀ (line : StampTextLine) (shape : StampShape),
      distributeSpacing [line] shape = 0 ∧
      (distributeLines [line] shape).length = 1 := by
  intro line shape
  constructor
  · simp [distributeSpacing]
  · rw [distributeLines_length]
    rfl

open TextPositioningService in
/-- Witness for C5 at a concrete two-line input. -/
theorem distributeLines_circle_endpoints_witness :
    2 ≤ ([sampleLine "TOP" 14 0 (-70), sampleLine "BOT" 14 0 70] :
        List StampTextLine).length ∧
    (((distributeLines [sampleLine "TOP" 14 0 (-70), sampleLine "BOT" 14 0 70]
          .circle).get ⟨0, by rw [distributeLines_length]; simp⟩).curved = true ∧
      ((distributeLines [sampleLine "TOP" 14 0 (-70), sampleLine "BOT" 14 0 70]
          .circle).get ⟨0, by rw [distributeLines_length]; simp⟩).curvature =
        some Curvature.top) :=
  ⟨by simp,
    (distributeLines_circle_endpoints
      [sampleLine "TOP" 14 0 (-70), sampleLine "BOT" 14 0 70] (by simp) 0
      (by rw [distributeLines_length]; simp)).1 rfl⟩

namespace TextPositioningService

/-- The pairwise collision test is symmetric in its two lines. -/
theorem collides_comm (a b : StampTextLine) : collides a b = collides b a := by
  simp only [collides]
  rw [decide_eq_decide]
  rw [abs_sub_comm (jsOr a.yPosition 0), abs_sub_comm (jsOr a.xPosition 0),
    add_comm (jsOr a.fontSize 16),
    add_comm ((a.text.length : ℝ) * jsOr a.fontSize 16 * 0.6)]

/-- The collision loop returns false exactly when no pair collides. -/
theorem detectGo_eq_false (l : List StampTextLine) :
    detectGo l = false ↔ l.Pairwise (fun a b => collides a b = false) := by
  induction l with
  | nil => simp [detectGo]
  | cons a rest ih =>
    simp [detectGo, ih, List.pairwise_cons, List.any_eq_false,
      Bool.or_eq_false_iff]

/-- The early-exit guard of `detectLineCollisions` agrees with the loop
on short lists, so the function is the loop on every input. -/
theorem detectLineCollisions_eq_detectGo (lines : List StampTextLine)
    (shape : StampShape) :
    detectLineCollisions lines shape = detectGo lines := by
  unfold detectLineCollisions
  split
  · rename_i h
    cases lines with
    | nil => rfl
    | cons a rest =>
      cases rest with
      | nil => simp [detectGo]
      | cons b tail =>
        simp at h
        omega
  · rfl

end TextPositioningService

open TextPositioningService in
/-- C7: `detectLineCollisions` is invariant under permutation of its
input list. -/
theorem detectLineCollisions_perm_invariant (l1 l2 : List StampTextLine)
    (shape : StampShape) (h : l1.Perm l2) :
    detectLineCollisions l1 shape = detectLineCollisions l2 shape := by
  rw [detectLineCollisions_eq_detectGo, detectLineCollisions_eq_detectGo]
  have hsym : Symmetric (fun a b : StampTextLine => collides a b = false) := by
    intro a b hab
    rw [collides_comm]
    exact hab
  have hiff := h.pairwise_iff (fun {x y} => @hsym x y)
  rw [← detectGo_eq_false, ← detectGo_eq_false] at hiff
  cases e1 : detectGo l1 <;> cases e2 : detectGo l2
  · rfl
  · rw [hiff.mp e1] at e2
    exact absurd e2 (by simp)
  · rw [hiff.mpr e2] at e1
    exact absurd e1 (by simp)
  · rfl

open TextPositioningService in
/-- Witness for C7 at a concrete two-line swap. -/
theorem detectLineCollisions_perm_invariant_witness :
    ([sampleLine "AB" 16 0 0, sampleLine "CD" 16 0 40] :
        List StampTextLine).Perm
      [sampleLine "CD" 16 0 40, sampleLine "AB" 16 0 0] ∧
    detectLineCollisions [sampleLine "AB" 16 0 0, sampleLine "CD" 16 0 40]
        .circle =
      detectLineCollisions [sampleLine "CD" 16 0 40, sampleLine "AB" 16 0 0]
        .circle :=
  ⟨List.Perm.swap _ _ _,
    detectLineCollisions_perm_invariant _ _ _ (List.Perm.swap _ _ _)⟩

namespace TextPositioningService

/-- A line with empty text is always considered within the safe zone. -/
theorem isTextWithinSafeZone_empty (line : StampTextLine)
    (shape : StampShape) : isTextWithinSafeZone "" line shape = true := by
  simp [isTextWithinSafeZone]

/-- Every index collected by the `forEach` of `getLinesOutsideSafeZone`
points at a list element failing `isTextWithinSafeZone`. -/
theorem linesOutsideGo_mem (shape : StampShape) :
    ∀ (l : List StampTextLine) (index i : ℕ),
      i ∈ linesOutsideGo shape index l →
      ∃ (k : ℕ) (hk : k < l.length), i = index + k ∧
        isTextWithinSafeZone (l.get ⟨k, hk⟩).text (l.get ⟨k, hk⟩) shape =
          false := by
  intro l
  induction l with
  | nil => intro index i h; simp [linesOutsideGo] at h
  | cons a rest ih =>
    intro index i h
    by_cases hc : isTextWithinSafeZone a.text a shape = false
    · rw [linesOutsideGo, if_pos hc] at h
      rcases List.mem_cons.mp h with h0 | hrest
      · exact ⟨0, by simp, by omega, hc⟩
      · obtain ⟨k, hk, hik, hfalse⟩ := ih (index + 1) i hrest
        exact ⟨k + 1, Nat.succ_lt_succ hk, by omega, hfalse⟩
    · rw [linesOutsideGo, if_neg hc] at h
      obtain ⟨k, hk, hik, hfalse⟩ := ih (index + 1) i h
      exact ⟨k + 1, Nat.succ_lt_succ hk, by omega, hfalse⟩

end TextPositioningService

open TextPositioningService in
/-- C10: a line with empty text passes `isTextWithinSafeZone` for every
shape and position, and `getLinesOutsideSafeZone` never reports the
index of an empty-text line. -/
theorem emptyText_line_never_outside (lines : List StampTextLine)
    (shape : StampShape) (i : ℕ) (h : i < lines.length)
    (he : (lines.get ⟨i, h⟩).text = "") :
    isTextWithinSafeZone (lines.get ⟨i, h⟩).text (lines.get ⟨i, h⟩) shape =
        true ∧
      i ∉ getLinesOutsideSafeZone lines shape := by
  constructor
  · rw [he]
    exact isTextWithinSafeZone_empty _ _
  · intro hmem
    unfold getLinesOutsideSafeZone at hmem
    rw [if_neg (by omega)] at hmem
    obtain ⟨k, hk, hik, hfalse⟩ := linesOutsideGo_mem shape lines 0 i hmem
    have hki : k = i := by omega
    subst hki
    have hsame : lines.get ⟨k, hk⟩ = lines.get ⟨k, h⟩ := rfl
    rw [hsame, he, isTextWithinSafeZone_empty] at hfalse
    exact absurd hfalse (by simp)

open TextPositioningService in
/-- Witness for C10: an empty-text line far outside the boundary. -/
theorem emptyText_line_never_outside_witness :
    ((([sampleLine "" 16 500 500] : List StampTextLine).get
        ⟨0, by simp⟩).text = "") ∧
      0 ∉ TextPositioningService.getLinesOutsideSafeZone
        [sampleLine "" 16 500 500] .rectangle :=
  ⟨rfl,
    (emptyText_line_never_outside [sampleLine "" 16 500 500] .rectangle 0
      (by simp) rfl).2⟩

/-- C6: the canvas curved-text helper in `useStampDesigner.ts` sweeps a
symmetric arc of total angle pi * 1.2 (not pi * 0.8 as documented in
PROJECT_STATUS.md), and the service renderer sweeps pi / 2 for top text
and 3 * pi / 2 for bottom text; neither equals pi * 0.8. -/
theorem renderCurvedText_sweep_constants :
    useStampDesigner.renderCurvedText_arcLength = Real.pi * 1.2 ∧
    useStampDesigner.renderCurvedText_startAngle = -(Real.pi * 1.2) / 2 ∧
    useStampDesigner.renderCurvedText_charAngle 5 = Real.pi * 1.2 / 5 ∧
    TextPositioningService.renderCurvedTextArcLength false = Real.pi / 2 ∧
    TextPositioningService.renderCurvedTextArcLength true =
      3 * Real.pi / 2 ∧
    useStampDesigner.renderCurvedText_arcLength ≠ Real.pi * 0.8 := by
  have hpi := Real.pi_pos
  refine ⟨rfl, rfl, ?_, ?_, ?_, ?_⟩
  · norm_num [useStampDesigner.renderCurvedText_charAngle,
      useStampDesigner.renderCurvedText_arcLength]
  · simp only [TextPositioningService.renderCurvedTextArcLength,
      TextPositioningService.renderCurvedTextEndAngle,
      TextPositioningService.renderCurvedTextStartAngle,
      Bool.false_eq_true, if_false]
    have h1 : Real.pi / 4 - -(Real.pi / 4) = Real.pi / 2 := by ring
    rw [h1, abs_of_nonneg (by linarith)]
  · simp only [TextPositioningService.renderCurvedTextArcLength,
      TextPositioningService.renderCurvedTextEndAngle,
      TextPositioningService.renderCurvedTextStartAngle, if_true]
    have h2 : Real.pi * 7 / 4 - Real.pi / 4 = 3 * Real.pi / 2 := by ring
    rw [h2, abs_of_nonneg (by linarith)]
  · unfold useStampDesigner.renderCurvedText_arcLength
    intro hcon
    nlinarith

/-- C8: the millimeter conversions satisfy `toMillimeters v = v / 4` and
`toCoord v = v * 4`, they are mutually inverse, and `toMillimeters`
agrees with the inline computation of `formatPositionLabel`. -/
theorem toCoord_toMillimeters_roundtrip :
    ∀ v : ℝ, GeometryPrimitives.toMillimeters v = v / 4 ∧
      GeometryPrimitives.toCoord v = v * 4 ∧
      GeometryPrimitives.toCoord (GeometryPrimitives.toMillimeters v) = v ∧
      GeometryPrimitives.toMillimeters v =
        SimplifiedTextEditor.formatPositionLabel_mm v := by
  intro v
  refine ⟨rfl, rfl, ?_, rfl⟩
  unfold GeometryPrimitives.toCoord GeometryPrimitives.toMillimeters
  ring

/-- C3: for a circle with three lines, the default positions are
curved top at -70 with font 14 for line 0, curved bottom at 70 with
font 14 for line 2, and a straight line at yPosition 10 for line 1. -/
theorem getDefaultLinePosition_circle_three_lines :
    TextPositioningService.getDefaultLinePosition 0 3 .circle =
      { xPosition := 0, yPosition := -70, curved := true,
        curvature := some .top, fontSize := 14 } ∧
    TextPositioningService.getDefaultLinePosition 2 3 .circle =
      { xPosition := 0, yPosition := 70, curved := true,
        curvature := some .bottom, fontSize := 14 } ∧
    TextPositioningService.getDefaultLinePosition 1 3 .circle =
      { xPosition := 0, yPosition := 10, curved := false,
        curvature := some .top, fontSize := 16 } := by
  refine ⟨?_, ?_, ?_⟩ <;>
    norm_num [TextPositioningService.getDefaultLinePosition]
